import Mathlib

/-!
Verification of the template registry / cache / bootstrap subsystem of
`lili.js` (the `lili-cli` repository).

Shallow embedding conventions:
* File-system paths are modelled as lists of path components
  (`path.join a b` becomes list append; a JS path string that may contain
  separators is split on the character `/`).
* The file system is modelled as a pair of predicates: a partial map from
  paths to file data and a set of directories.  All file-system primitives
  used by the source (`fs.remove`, `fs.ensureDir`, `fs.copy` with
  `overwrite: true`, `fs.pathExists`, `fs.writeJSON`, `fs.mkdtemp`) are
  given explicit transition functions on this state.
* External effects (the `git clone` subprocess, a possibly failing
  destination copy, spawned shell commands) are modelled by explicit
  outcome parameters supplied to the embedded functions; success of
  `fs.copy` applies the full recursive-overwrite copy, while a failing
  copy may leave an arbitrary subset of the source files written at the
  destination (fs-extra performs no cleanup of a partially copied
  destination).
* JavaScript truthiness on optional strings ( `x || y` ) is modelled by
  `orTruthy`, which treats `none` and `some ""` as falsy.
-/

namespace Lili

/-- `relativeTo base p` returns `some r` when `p = base ++ r`, i.e. when
`p` lies at or below the directory `base`. -/
def relativeTo : List String → List String → Option (List String)
  | [], p => some p
  | _ :: _, [] => none
  | a :: as, b :: bs => if a = b then relativeTo as bs else none

/-- `p` is at or strictly below `d`. Models what `fs.remove d` erases. -/
def pathUnderEq (d p : List String) : Bool :=
  (relativeTo d p).isSome

/-- `p` is strictly below the directory `d`. -/
def pathUnder (d p : List String) : Bool :=
  match relativeTo d p with
  | some (_ :: _) => true
  | _ => false

/-- Splits a character list on a separator character (the char-level
equivalent of `String.splitOn` for a one-character separator, written
out so that it evaluates by kernel reduction). -/
def splitChars (sep : Char) : List Char → List (List Char)
  | [] => [[]]
  | c :: rest =>
    let r := splitChars sep rest
    if c = sep then [] :: r
    else
      match r with
      | [] => [[c]]
      | h :: t => (c :: h) :: t

/-- Splits a JS path string on the separator, as `path.join` does when a
segment itself contains separators. -/
def splitPath (s : String) : List String :=
  (splitChars '/' s.data).map String.mk

/-- Models JavaScript's `String.prototype.toLowerCase` (char-level so it
evaluates by kernel reduction). -/
def toLowerStr (s : String) : String := String.mk (s.data.map Char.toLower)

/-- Models `cond ? path.join(base, s) : base` for an optional, possibly
falsy, JS string `s`. -/
def joinTruthy (base : List String) (s : Option String) : List String :=
  match s with
  | some v => if v = "" then base else base ++ splitPath v
  | none => base

/-- Models the JS expression `a || b` on optional strings: `none` and the
empty string are falsy. -/
def orTruthy (a b : Option String) : Option String :=
  match a with
  | some s => if s = "" then b else some s
  | none => b

/-- Truthiness of an optional JS string value. -/
def truthyStr (a : Option String) : Bool :=
  match a with
  | some s => !(s = "")
  | none => false

/-- Environment overlay objects (`installEnv`, `devEnv`, a step's `env`),
kept opaque as association lists of variable bindings. -/
def EnvMap := List (String × String)
deriving DecidableEq

/-- One element of `bootstrap.deployCommands`: the source accepts a plain
command string, an object `{name?, command, cwd?, env?}`, or a falsy
entry which the loop skips. -/
inductive DeployEntry where
  | strCmd (command : String)
  | objCmd (label : Option String) (command : String) (cwd : Option String)
      (env : Option EnvMap)
  | nullCmd
deriving DecidableEq

/-- The `bootstrap` configuration object of a manifest entry; every field
may be absent (`undefined`). -/
structure BootstrapConfig where
  packageManager : Option String := none
  installCommand : Option String := none
  installCwd : Option String := none
  installEnv : Option EnvMap := none
  deployCommands : Option (List DeployEntry) := none
  devCommand : Option String := none
  devCwd : Option String := none
  devEnv : Option EnvMap := none
deriving DecidableEq

/-- One template entry, as stored in a manifest (and as passed to the
cache and bootstrap functions).  Absent JSON fields are `none`. -/
structure Template where
  name : String
  title : Option String := none
  displayName : Option String := none
  description : Option String := none
  source : Option String := none
  repo : Option String := none
  ref : Option String := none
  subdir : Option String := none
  localPath : Option String := none
  path : Option String := none
  cachePath : Option String := none
  featured : Option Bool := none
  bootstrap : Option BootstrapConfig := none
deriving DecidableEq

/-- The provenance sidecar object written by `writeTemplateMetadata`. -/
structure MetaRecord where
  name : String
  title : String
  source : String
  repo : Option String
  ref : Option String
  subdir : Option String
  localPath : Option String
  cachePath : Option String
  description : Option String
  bootstrap : Option BootstrapConfig
  updatedAt : String
deriving DecidableEq

/-- Contents of one file: either an opaque blob of bytes or the JSON
serialisation of a provenance sidecar. -/
inductive FileData where
  | blob (data : String)
  | meta (record : MetaRecord)
deriving DecidableEq

/-- The file-system state: a partial map from paths to file contents and
a set of directories. -/
structure FS where
  files : List String → Option FileData
  dirs : List String → Bool

/-- The empty file system. -/
def FS.empty : FS := { files := fun _ => none, dirs := fun _ => false }

/-- Models `fs.remove d` (recursive, also removes a plain file at `d`). -/
def removePath (fs : FS) (d : List String) : FS :=
  { files := fun p => if pathUnderEq d p then none else fs.files p,
    dirs := fun q => if pathUnderEq d q then false else fs.dirs q }

/-- Models `fs.ensureDir d` / `fs.mkdtemp` creating the directory `d`. -/
def mkdir (fs : FS) (d : List String) : FS :=
  { fs with dirs := fun q => if q = d then true else fs.dirs q }

/-- Models writing a single file (e.g. `fs.writeJSON`). -/
def writeFile (fs : FS) (p : List String) (c : FileData) : FS :=
  { fs with files := fun q => if q = p then some c else fs.files q }

/-- Models `fs.pathExists p` (true for a directory or a file at `p`). -/
def pathExists (fs : FS) (p : List String) : Bool :=
  fs.dirs p || (fs.files p).isSome

/-- Models a successful `fs.copy(src, dst, {overwrite:true, recursive:true})`
within one file system: every entry below `src` re-appears below `dst`,
overwriting conflicting destination entries and keeping the rest. -/
def copyWithin (fs : FS) (src dst : List String) : FS :=
  { files := fun p =>
      match relativeTo dst p with
      | some r =>
        match fs.files (src ++ r) with
        | some c => some c
        | none => fs.files p
      | none => fs.files p,
    dirs := fun q =>
      match relativeTo dst q with
      | some r => fs.dirs (src ++ r) || fs.dirs q
      | none => fs.dirs q }

/-- Models a failing `fs.copy(src, dst, ...)`: the destination directory
has been created and an arbitrary subset `written` of the source's
relative file paths has already been copied when the error is raised;
fs-extra does not clean the destination up. -/
def partialCopy (fs : FS) (src dst : List String)
    (written : List (List String)) : FS :=
  { files := fun p =>
      match relativeTo dst p with
      | some r =>
        if written.contains r then
          match fs.files (src ++ r) with
          | some c => some c
          | none => fs.files p
        else fs.files p
      | none => fs.files p,
    dirs := fun q => if q = dst then true else fs.dirs q }

/-- Outcome of one `fs.copy` call: either it completes, or it fails with
a message after writing the given relative paths. -/
inductive CopyOutcome where
  | full
  | fail (written : List (List String)) (msg : String)

/-- The directory tree produced by a successful `git clone`, with paths
relative to the temporary clone root. -/
structure TreeOut where
  files : List (List String × FileData)
  dirs : List (List String)

/-- First-match lookup of a relative path in a clone tree. -/
def lookupTree (l : List (List String × FileData)) (q : List String) :
    Option FileData :=
  (l.find? (fun e => e.1 = q)).map (·.2)

/-- Models the clone subprocess populating the fresh directory `dst` with
the tree `t` (file writes into an existing directory). -/
def placeTree (fs : FS) (dst : List String) (t : TreeOut) : FS :=
  { files := fun p =>
      match relativeTo dst p with
      | some r =>
        match lookupTree t.files r with
        | some c => some c
        | none => fs.files p
      | none => fs.files p,
    dirs := fun q =>
      match relativeTo dst q with
      | some r => t.dirs.contains r || fs.dirs q
      | none => fs.dirs q }

/-! ## Source Fetcher and Template Cache (lili.js lines 625-703) -/

/-- The regular expression test of line 653:
`/^[A-Za-z0-9_.-]+\/[A-Za-z0-9_.-]+$/`, combined with the preceding
falsy check `!template.repo`. -/
def validRepo (repo : Option String) : Bool :=
  match repo with
  | none => false
  | some r =>
    if r = "" then false
    else
      match splitChars '/' r.data with
      | [a, b] =>
        !a.isEmpty && !b.isEmpty &&
          a.all (fun c => c.isAlphanum || c = '_' || c = '.' || c = '-') &&
          b.all (fun c => c.isAlphanum || c = '_' || c = '.' || c = '-')
      | _ => false

/-- Line 643: `template.localPath || template.path || template.name`. -/
def localPathOf (t : Template) : String :=
  (orTruthy t.localPath (orTruthy t.path (some t.name))).getD t.name

/-- The metadata object assembled by `writeTemplateMetadata`
(lines 625-640); `now` is the `updatedAt` timestamp. -/
def metaFor (t : Template) (now : String) : MetaRecord :=
  { name := t.name,
    title := (orTruthy t.title (orTruthy t.displayName (some t.name))).getD t.name,
    source := (orTruthy t.source (some "github")).getD "github",
    repo := orTruthy t.repo none,
    ref := orTruthy t.ref none,
    subdir := orTruthy t.subdir none,
    localPath := orTruthy t.localPath (orTruthy t.path none),
    cachePath := orTruthy t.cachePath none,
    description := orTruthy t.description none,
    bootstrap := t.bootstrap,
    updatedAt := now }

/-- The name of the provenance sidecar file: `.lili-template.json`. -/
def metaFileName : String := ".lili-template.json"

/-- Models `writeTemplateMetadata(targetDir, template)` (line 639). -/
def writeTemplateMetadata (fs : FS) (targetDir : List String)
    (t : Template) (now : String) : FS :=
  writeFile fs (targetDir ++ [metaFileName]) (FileData.meta (metaFor t now))

/-- Models `copyLocalTemplate(template, destination)` (lines 642-650).
`templatesDir` is the resolved `TEMPLATES_DIR`; `copyOut` is the outcome
of the `fs.copy` call.  Returns the final file system and either success
or the raised error message. -/
def copyLocalTemplate (fs : FS) (templatesDir : List String) (t : Template)
    (destination : List String) (copyOut : CopyOutcome) (now : String) :
    FS × Except String Unit :=
  let sourceDir := templatesDir ++ splitPath (localPathOf t)
  if pathExists fs sourceDir then
    match copyOut with
    | CopyOutcome.full =>
      let fs1 := copyWithin fs sourceDir destination
      (writeTemplateMetadata fs1 destination { t with source := some "local" } now,
        Except.ok ())
    | CopyOutcome.fail written msg =>
      (partialCopy fs sourceDir destination written, Except.error msg)
  else
    (fs, Except.error ("Local template not found at " ++ localPathOf t))

/-- Models `cloneTemplateFromGitHub(template, destination)`
(lines 652-673).  `tmpRoot` is the fresh directory handed out by
`fs.mkdtemp`; `cloneResult` is the outcome of the `git clone`
subprocess (an error message, or the cloned tree); `copyOut` is the
outcome of the destination `fs.copy`.  The `finally` block removes
`tmpRoot` on every path that created it; the metadata sidecar is written
after that, on success only. -/
def cloneTemplateFromGitHub (fs : FS) (t : Template)
    (destination tmpRoot : List String)
    (cloneResult : Except String TreeOut) (copyOut : CopyOutcome)
    (now : String) : FS × Except String Unit :=
  if !validRepo t.repo then
    (fs, Except.error "Invalid GitHub repository identifier")
  else
    let fs1 := mkdir fs tmpRoot
    match cloneResult with
    | Except.error e =>
      (removePath fs1 tmpRoot,
        Except.error ("Failed to download template from GitHub: " ++ e))
    | Except.ok tree =>
      let fs2 := placeTree fs1 tmpRoot tree
      let sourceDir := joinTruthy tmpRoot t.subdir
      if !pathExists fs2 sourceDir then
        (removePath fs2 tmpRoot,
          Except.error ("Failed to download template from GitHub: " ++
            "Subdirectory not found in cloned repository"))
      else
        match copyOut with
        | CopyOutcome.full =>
          let fs3 := copyWithin fs2 sourceDir destination
          let fs4 := removePath fs3 tmpRoot
          (writeTemplateMetadata fs4 destination t now, Except.ok ())
        | CopyOutcome.fail written msg =>
          let fs3 := partialCopy fs2 sourceDir destination written
          (removePath fs3 tmpRoot,
            Except.error ("Failed to download template from GitHub: " ++ msg))

/-- Models `ensureTemplateCache(template, options)` (lines 675-689).
`cacheDir` is `TEMPLATE_CACHE_DIR`; the remaining parameters model the
external effects exactly as in `cloneTemplateFromGitHub` /
`copyLocalTemplate`.  Returns the final file system together with the
returned cache path or the raised error. -/
def ensureTemplateCache (fs : FS) (t : Template) (force : Bool)
    (templatesDir cacheDir tmpRoot : List String)
    (cloneResult : Except String TreeOut) (copyOut : CopyOutcome)
    (now : String) : FS × Except String (List String) :=
  let targetDir := cacheDir ++ [t.name]
  if !force && pathExists fs targetDir then
    (fs, Except.ok targetDir)
  else
    let fs1 := removePath fs targetDir
    let fs2 := mkdir fs1 cacheDir
    if toLowerStr (t.source.getD "") = "local" then
      match copyLocalTemplate fs2 templatesDir t targetDir copyOut now with
      | (fs3, Except.ok _) => (fs3, Except.ok targetDir)
      | (fs3, Except.error e) => (fs3, Except.error e)
    else
      match cloneTemplateFromGitHub fs2 t targetDir tmpRoot cloneResult copyOut now with
      | (fs3, Except.ok _) => (fs3, Except.ok targetDir)
      | (fs3, Except.error e) => (fs3, Except.error e)

/-- The file that a successful fetch for `t` places at relative path `r`
below the cache directory (before the sidecar is written): for a local
template the file found below the bundled source directory, for a remote
template the cloned tree's file below the effective subdirectory.
Derived from the copy sources of `copyLocalTemplate` (line 648) and
`cloneTemplateFromGitHub` (lines 662-666). -/
def fetchOutputFile (fs : FS) (t : Template) (templatesDir : List String)
    (tree : TreeOut) (r : List String) : Option FileData :=
  if toLowerStr (t.source.getD "") = "local" then
    fs.files (templatesDir ++ splitPath (localPathOf t) ++ r)
  else
    lookupTree tree.files (joinTruthy [] t.subdir ++ r)

/-- The sidecar record a successful `ensureTemplateCache` writes for `t`:
the local branch passes `{...template, source:'local'}` (line 649), the
remote branch passes the template unchanged (line 672). -/
def ensuredMeta (t : Template) (now : String) : MetaRecord :=
  if toLowerStr (t.source.getD "") = "local" then
    metaFor { t with source := some "local" } now
  else
    metaFor t now

/-! ## Manifest Store and Reconciler (lili.js lines 538-605) -/

/-- The in-memory shape returned by `loadTemplateManifest`. -/
structure Manifest where
  version : Nat
  templates : List Template
deriving DecidableEq

/-- The raw parse of the user manifest file (`templates` is `none` when
the JSON value is not an array, `version` is `none` when absent). -/
structure UserDoc where
  version : Option Nat
  templates : Option (List Template)
deriving DecidableEq

/-- The raw parse of the shipped default manifest, after the
`!base || !Array.isArray(base.templates)` guard of line 565 has accepted
it. -/
structure BaseDoc where
  version : Option Nat
  templates : List Template
deriving DecidableEq

/-- Models `loadTemplateManifest` (lines 538-549): a failed read yields
the empty manifest, `templates` is coerced to an array and `version`
defaults to 1. -/
def loadTemplateManifest (read : Option UserDoc) : Manifest :=
  match read with
  | none => { version := 1, templates := [] }
  | some d => { version := d.version.getD 1, templates := d.templates.getD [] }

/-- One field of the overwrite loop of lines 577-585: skip when the
default leaves the field `undefined`, otherwise overwrite the user's
value when the two differ, reporting whether an overwrite happened. -/
def mergeField {α : Type} [DecidableEq α] (tplF exF : Option α) :
    Option α × Bool :=
  match tplF with
  | none => (exF, false)
  | some v =>
    match exF with
    | some w => if w = v then (exF, false) else (some v, true)
    | none => (some v, true)

/-- The body of lines 576-585 for one matched entry: the fixed key set
`title, description, source, repo, ref, subdir, localPath, featured,
bootstrap` is merged field by field (the `bootstrap` comparison by
`JSON.stringify` is modelled as structural equality).  Returns the
updated entry and whether any field changed. -/
def overwriteEntry (existing tpl : Template) : Template × Bool :=
  ({ existing with
      title := (mergeField tpl.title existing.title).1,
      description := (mergeField tpl.description existing.description).1,
      source := (mergeField tpl.source existing.source).1,
      repo := (mergeField tpl.repo existing.repo).1,
      ref := (mergeField tpl.ref existing.ref).1,
      subdir := (mergeField tpl.subdir existing.subdir).1,
      localPath := (mergeField tpl.localPath existing.localPath).1,
      featured := (mergeField tpl.featured existing.featured).1,
      bootstrap := (mergeField tpl.bootstrap existing.bootstrap).1 },
    (mergeField tpl.title existing.title).2 ||
      (mergeField tpl.description existing.description).2 ||
      (mergeField tpl.source existing.source).2 ||
      (mergeField tpl.repo existing.repo).2 ||
      (mergeField tpl.ref existing.ref).2 ||
      (mergeField tpl.subdir existing.subdir).2 ||
      (mergeField tpl.localPath existing.localPath).2 ||
      (mergeField tpl.featured existing.featured).2 ||
      (mergeField tpl.bootstrap existing.bootstrap).2)

/-- The running state of the reconciliation loop: the merged list, the
name-to-index `Map` of line 569 (later entries override earlier ones, as
the `Map` constructor does), and the `changed` flag. -/
structure LoopState where
  merged : List Template
  index : String → Option Nat
  changed : Bool

/-- Builds `new Map(merged.map((tpl, idx) => [tpl.name, idx]))` starting
at index `i`: the last occurrence of a name wins. -/
def initIndex : List Template → Nat → (String → Option Nat)
  | [], _ => fun _ => none
  | t :: ts, i => fun n =>
    match initIndex ts (i + 1) n with
    | some j => some j
    | none => if n = t.name then some i else none

/-- One iteration of the `for (const tpl of base.templates)` loop
(lines 572-591): skip falsy names, overwrite a matched entry in place,
or append a new entry and record its index. -/
def reconcileStep (st : LoopState) (tpl : Template) : LoopState :=
  if tpl.name = "" then st
  else
    match st.index tpl.name with
    | some i =>
      match st.merged[i]? with
      | some existing =>
        let r := overwriteEntry existing tpl
        { st with merged := st.merged.set i r.1, changed := st.changed || r.2 }
      | none => st
    | none =>
      { merged := st.merged ++ [tpl],
        index := fun n => if n = tpl.name then some st.merged.length else st.index n,
        changed := true }

/-- The whole merge loop over the default manifest's entries, started
from the loaded user manifest. -/
def reconcileMergeResult (base : BaseDoc) (user : Manifest) : LoopState :=
  base.templates.foldl reconcileStep
    { merged := user.templates, index := initIndex user.templates 0,
      changed := false }

/-- The sort key of line 600: `a.title || a.name`. -/
def sortKeyOf (t : Template) : String :=
  (orTruthy t.title (some t.name)).getD t.name

/-- Sorted insertion used to model the in-place `merged.sort(...)`. -/
def insertByKey (t : Template) : List Template → List Template
  | [] => [t]
  | h :: rest =>
    if sortKeyOf t ≤ sortKeyOf h then t :: h :: rest
    else h :: insertByKey t rest

/-- The final `merged.sort(...)` of line 600, modelled as a sort by the
key of `sortKeyOf` (`localeCompare` is modelled as code-point order; the
claims do not depend on the ordering, only on the preserved
membership). -/
def sortByTitle : List Template → List Template
  | [] => []
  | h :: rest => insertByKey h (sortByTitle rest)

/-- Models `reconcileTemplateManifestWithDefaults` (lines 559-605).
`userExists` / `defaultExists` model the two `fs.pathExists` guards;
`baseRead` models `fs.readJSON(TEMPLATE_MANIFEST_FILE).catch(() => null)`
together with the array check of line 565 (`none` when the read failed
or `templates` is not an array); `userRead` feeds
`loadTemplateManifest`; `saveFails` makes the final
`saveTemplateManifest` throw (the write is modelled as atomic, so a
failed save leaves the file unchanged).  The result is `some payload`
when the user manifest file is rewritten with `payload`, and `none` when
it is left untouched; every raised exception is swallowed by the
enclosing `try`/`catch`. -/
def reconcileTemplateManifestWithDefaults (userExists defaultExists : Bool)
    (baseRead : Option BaseDoc) (userRead : Option UserDoc)
    (saveFails : Bool) : Option Manifest :=
  if !userExists then none
  else if !defaultExists then none
  else
    match baseRead with
    | none => none
    | some base =>
      let user := loadTemplateManifest userRead
      let st := reconcileMergeResult base user
      let targetVersion := max (base.version.getD 1) user.version
      let changed := st.changed || !(user.version = targetVersion)
      if !changed then none
      else if saveFails then none
      else some { version := targetVersion, templates := sortByTitle st.merged }

/-! ## Bootstrap Planner and Step Runner (lili.js lines 185-297, 725-746) -/

/-- The `PACKAGE_MANAGER_INSTALL` table (lines 185-190), as a lookup
returning `undefined` for unknown managers. -/
def packageManagerInstall (pm : String) : Option String :=
  if pm = "npm" then some "npm install"
  else if pm = "pnpm" then some "pnpm install"
  else if pm = "yarn" then some "yarn install"
  else if pm = "bun" then some "bun install"
  else none

/-- The `PACKAGE_MANAGER_DEV` table (lines 192-197). -/
def packageManagerDev (pm : String) : Option String :=
  if pm = "npm" then some "npm run dev"
  else if pm = "pnpm" then some "pnpm dev"
  else if pm = "yarn" then some "yarn dev"
  else if pm = "bun" then some "bun dev"
  else none

/-- Line 199: `(base, subdir) => subdir ? path.join(base, subdir) : base`. -/
def resolveBootstrapCwd (base : List String) (subdir : Option String) :
    List String :=
  joinTruthy base subdir

/-- Lines 223-225: `defaultLabel || command`. -/
def formatStepName (defaultLabel : Option String) (command : String) : String :=
  (orTruthy defaultLabel (some command)).getD command

/-- The `scripts` object of a parsed `package.json`; only the `dev`
script is consulted by the source. -/
structure Scripts where
  dev : Option String
deriving DecidableEq

/-- A parsed `package.json`, reduced to the fields the source reads. -/
structure PackageJson where
  scripts : Option Scripts
deriving DecidableEq

/-- The observable state of a bootstrap destination directory: which
lockfiles exist, whether `package.json` exists, and its parse
(`packageJson = none` when the file is missing or unparsable, as
`loadPackageJsonIfExists` returns `null` in both cases). -/
structure DirState where
  hasPnpmLock : Bool
  hasYarnLock : Bool
  hasBunLock : Bool
  hasPackageLock : Bool
  packageJsonExists : Bool
  packageJson : Option PackageJson

/-- Models `detectPackageManager(dir, preferred)` (lines 207-221): a
truthy `preferred` short-circuits; otherwise the lockfile candidates are
probed in the fixed order `pnpm-lock.yaml`, `yarn.lock`, `bun.lockb`,
`package-lock.json` and the first hit wins; otherwise `npm` when
`package.json` exists, else `null`. -/
def detectPackageManager (d : DirState) (preferred : Option String) :
    Option String :=
  if truthyStr preferred then preferred
  else if d.hasPnpmLock then some "pnpm"
  else if d.hasYarnLock then some "yarn"
  else if d.hasBunLock then some "bun"
  else if d.hasPackageLock then some "npm"
  else if d.packageJsonExists then some "npm"
  else none

/-- One entry of the composed plan (lines 238-243, 250-263). -/
structure Step where
  name : String
  command : String
  cwd : List String
  env : Option EnvMap
deriving DecidableEq

/-- The plan composition of `bootstrapTemplateDestination`
(lines 227-264): the synthesized or configured install step first, then
each truthy `deployCommands` entry in order. -/
def bootstrapSteps (t : Template) (destination : List String)
    (d : DirState) : List Step :=
  let bootstrap := t.bootstrap.getD {}
  let packageManager := detectPackageManager d bootstrap.packageManager
  let installCommand :=
    match orTruthy bootstrap.installCommand none with
    | some c => some c
    | none =>
      match d.packageJson, packageManager with
      | some _, some pm => packageManagerInstall pm
      | _, _ => none
  let installSteps :=
    match installCommand with
    | some c =>
      [{ name := formatStepName (some "Install dependencies") c,
         command := c,
         cwd := resolveBootstrapCwd destination bootstrap.installCwd,
         env := bootstrap.installEnv }]
    | none => []
  let deploySteps := (bootstrap.deployCommands.getD []).filterMap fun e =>
    match e with
    | DeployEntry.nullCmd => none
    | DeployEntry.strCmd s =>
      if s = "" then none
      else some { name := formatStepName (some "Run deployment command") s,
                  command := s, cwd := destination, env := none }
    | DeployEntry.objCmd label command cwd env =>
      some { name := formatStepName (orTruthy label none) command,
             command := command,
             cwd := resolveBootstrapCwd destination cwd,
             env := env }
  installSteps ++ deploySteps

/-- How the spawned child of one shell command terminates: the process
fails to spawn (the `error` event) or exits with a code. -/
inductive SpawnOutcome where
  | spawnFailure (msg : String)
  | exited (code : Nat)

/-- Models `runShellCommand(command, options)` (lines 725-746): resolves
on exit code 0, rejects with the spawn error or with
`Command failed (<command>) with exit code <code>`. -/
def runShellCommand (command : String) (outcome : SpawnOutcome) :
    Except String Unit :=
  match outcome with
  | SpawnOutcome.spawnFailure m => Except.error m
  | SpawnOutcome.exited code =>
    if code = 0 then Except.ok ()
    else
      Except.error ("Command failed (" ++ command ++ ") with exit code " ++
        toString code)

/-- The step loop of lines 270-281, instrumented with the list of steps
whose command was actually handed to `runShellCommand`: the first
failure is wrapped as `Step "<name>" failed: <message>` and ends the
loop.  `world` gives each step's spawn outcome. -/
def runSteps (world : Step → SpawnOutcome) : List Step →
    List Step × Option String
  | [] => ([], none)
  | s :: rest =>
    match runShellCommand s.command (world s) with
    | Except.error e =>
      ([s], some ("Step \"" ++ s.name ++ "\" failed: " ++ e))
    | Except.ok _ =>
      let r := runSteps world rest
      (s :: r.1, r.2)

/-- The value returned by `bootstrapTemplateDestination` on success
(lines 287-296). -/
structure DevInfo where
  devCommand : Option String
  devCwd : List String
  devEnv : Option EnvMap
deriving DecidableEq

/-- The `devCommand` resolution of lines 287-290. -/
def resolveDevCommand (t : Template) (d : DirState) : Option String :=
  let bootstrap := t.bootstrap.getD {}
  let packageManager := detectPackageManager d bootstrap.packageManager
  match orTruthy bootstrap.devCommand none with
  | some c => some c
  | none =>
    match d.packageJson, packageManager with
    | some pj, some pm =>
      match pj.scripts with
      | some scr => if truthyStr scr.dev then packageManagerDev pm else none
      | none => none
    | _, _ => none

/-- Models `bootstrapTemplateDestination(template, destination)`
(lines 227-297): composes the plan, runs it sequentially and fail-fast,
and on success returns the dev-server information instead of starting
it.  The first component is the instrumented list of executed steps. -/
def bootstrapTemplateDestination (t : Template) (destination : List String)
    (d : DirState) (world : Step → SpawnOutcome) :
    List Step × Except String DevInfo :=
  let steps := bootstrapSteps t destination d
  match runSteps world steps with
  | (tr, some e) => (tr, Except.error e)
  | (tr, none) =>
    let bootstrap := t.bootstrap.getD {}
    (tr, Except.ok
      { devCommand := resolveDevCommand t d,
        devCwd := resolveBootstrapCwd destination bootstrap.devCwd,
        devEnv := bootstrap.devEnv })

/-! ## Statement helpers and concrete fixtures for witnesses -/

/-- The template list held by the user manifest file after a
reconciliation run: the saved payload's list when the file was
rewritten, the previous on-disk list otherwise. -/
def finalUserTemplates (r : Option Manifest) (onDisk : List Template) :
    List Template :=
  match r with
  | some m => m.templates
  | none => onDisk

/-- A concrete file system: a bundled local template `tpl/basic/a.txt`
and a pre-existing cache entry `cache/basic/old.txt`. -/
def fixFs : FS :=
  writeFile
    (writeFile
      (mkdir (mkdir (mkdir (mkdir FS.empty ["tpl"]) ["tpl", "basic"])
        ["cache"]) ["cache", "basic"])
      ["tpl", "basic", "a.txt"] (FileData.blob "A"))
    ["cache", "basic", "old.txt"] (FileData.blob "OLD")

/-- A local-source manifest entry. -/
def fixLocal : Template :=
  { name := "basic", source := some "local", localPath := some "basic" }

/-- A remote-source manifest entry with a subdirectory. -/
def fixRemote : Template :=
  { name := "web", source := some "remote", repo := some "acme/scaffolds",
    ref := some "main", subdir := some "web-starter" }

/-- A cloned tree containing `web-starter/f.txt`. -/
def fixTreeWeb : TreeOut :=
  { files := [(["web-starter", "f.txt"], FileData.blob "F")],
    dirs := [["web-starter"]] }

/-- An empty cloned tree. -/
def fixTreeEmpty : TreeOut := { files := [], dirs := [] }

/-- A default manifest whose only entry leaves `title` undefined. -/
def fixBaseNoTitle : BaseDoc :=
  { version := some 1, templates := [{ name := "x" }] }

/-- A user manifest whose entry `x` carries a customized title. -/
def fixUserCustomTitle : UserDoc :=
  { version := some 1, templates := some [{ name := "x", title := some "custom" }] }

/-- A default manifest at version 2 whose entry matches the user's. -/
def fixBaseV2 : BaseDoc := { version := some 2, templates := [{ name := "x" }] }

/-- A user manifest at version 1 with the same single entry. -/
def fixUserV1 : UserDoc :=
  { version := some 1, templates := some [{ name := "x" }] }

/-- A default manifest pinning entry `x` to ref `main`. -/
def fixBaseRef : BaseDoc :=
  { version := some 1, templates := [{ name := "x", ref := some "main" }] }

/-- A user manifest that retargeted entry `x` to ref `dev`. -/
def fixUserRef : UserDoc :=
  { version := some 1, templates := some [{ name := "x", ref := some "dev" }] }

/-- A default manifest with one entry named `a`. -/
def fixBaseA : BaseDoc :=
  { version := some 2, templates := [{ name := "a", title := some "A" }] }

/-- A user manifest with one user-only entry named `mine`. -/
def fixUserMine : UserDoc :=
  { version := some 1, templates := some [{ name := "mine", ref := some "dev" }] }

/-- A template whose bootstrap plan consists of deploy commands
`a`, `B` (object form) and `c`. -/
def fixPlanTpl : Template :=
  { name := "plan",
    bootstrap := some
      { deployCommands := some
          [DeployEntry.strCmd "a",
           DeployEntry.objCmd (some "B") "b" none none,
           DeployEntry.strCmd "c"] } }

/-- A world in which the command `b` exits 1 and everything else
exits 0. -/
def fixWorld : Step → SpawnOutcome := fun s =>
  if s.command = "b" then SpawnOutcome.exited 1 else SpawnOutcome.exited 0

/-- An empty destination directory. -/
def fixDirEmpty : DirState :=
  { hasPnpmLock := false, hasYarnLock := false, hasBunLock := false,
    hasPackageLock := false, packageJsonExists := false, packageJson := none }

/-- A destination containing only `yarn.lock`, a `package.json` with a
`dev` script. -/
def fixDirYarn : DirState :=
  { hasPnpmLock := false, hasYarnLock := true, hasBunLock := false,
    hasPackageLock := false, packageJsonExists := true,
    packageJson := some { scripts := some { dev := some "vite" } } }

/-- The first deploy step that `fixPlanTpl` produces. -/
def fixStepA : Step :=
  { name := "Run deployment command", command := "a", cwd := ["dest"], env := none }

/-- The second (failing) deploy step that `fixPlanTpl` produces. -/
def fixStepB : Step := { name := "B", command := "b", cwd := ["dest"], env := none }

/-- The third deploy step that `fixPlanTpl` produces. -/
def fixStepC : Step :=
  { name := "Run deployment command", command := "c", cwd := ["dest"], env := none }

/-- A template whose bootstrap configuration pins the package manager. -/
def fixPreferredTpl : Template :=
  { name := "pref", bootstrap := some { packageManager := some "bun" } }

/-- A destination that contains a `pnpm-lock.yaml` on top of
`fixDirYarn`'s contents. -/
def fixDirPnpm : DirState := { fixDirYarn with hasPnpmLock := true }

/-- A template with an empty bootstrap configuration object. -/
def fixEmptyBootTpl : Template := { name := "t", bootstrap := some {} }

/-- Consistency of the reconciliation loop's name index: every indexed
position holds an entry carrying that name. -/
def indexConsistent (st : LoopState) : Prop :=
  ∀ n i, st.index n = some i → ∃ e, st.merged[i]? = some e ∧ e.name = n

/-- The loop state tracks the value `w` for name `n` at position `i`. -/
def tracksAt (st : LoopState) (n : String) (i : Nat) (w : Template) : Prop :=
  st.index n = some i ∧ st.merged[i]? = some w

/-! ## Path algebra lemmas -/

theorem relativeTo_append (d r : List String) : relativeTo d (d ++ r) = some r := by
  induction d with
  | nil => rfl
  | cons a as ih => simp [relativeTo, ih]

theorem pathUnderEq_append (d r : List String) : pathUnderEq d (d ++ r) = true := by
  simp [pathUnderEq, relativeTo_append]

theorem pathUnderEq_refl (d : List String) : pathUnderEq d d = true := by
  have h := pathUnderEq_append d []
  simpa using h

theorem pathUnderEq_of_append (a b r : List String)
    (h : pathUnderEq a (b ++ r) = true) :
    pathUnderEq a b = true ∨ pathUnderEq b a = true := by
  induction a generalizing b with
  | nil => exact Or.inl (by simp [pathUnderEq, relativeTo])
  | cons x xs ih =>
    cases b with
    | nil => exact Or.inr (by simp [pathUnderEq, relativeTo])
    | cons y ys =>
      by_cases hxy : x = y
      · subst hxy
        simp only [pathUnderEq, relativeTo, List.cons_append, if_pos rfl] at h ⊢
        exact ih ys h
      · simp only [pathUnderEq, relativeTo, List.cons_append, if_neg hxy] at h
        simp at h

theorem pathUnderEq_append_false (a b r : List String)
    (h1 : pathUnderEq a b = false) (h2 : pathUnderEq b a = false) :
    pathUnderEq a (b ++ r) = false := by
  cases hc : pathUnderEq a (b ++ r) with
  | false => rfl
  | true =>
    rcases pathUnderEq_of_append a b r hc with h | h
    · rw [h1] at h; exact absurd h (by simp)
    · rw [h2] at h; exact absurd h (by simp)

theorem joinTruthy_eq_append (base : List String) (s : Option String) :
    joinTruthy base s = base ++ joinTruthy [] s := by
  cases s with
  | none => simp [joinTruthy]
  | some v =>
    by_cases h : v = "" <;> simp [joinTruthy, h]

/-! ## Claim C2: cache hit returns the path unchanged, no fetch -/

/-- C2: for an entry whose cache directory `cacheRoot/entry.name`
already exists, `ensure(entry, {force:false})` returns that path and
leaves the file system untouched; no fetch is performed — the result is
the same for every possible clone and copy outcome, and a second
consecutive call (again for arbitrary fetch outcomes) returns the same
`cachePath` from the same untouched state. -/
theorem c2_cache_hit_idempotent (fs : FS) (t : Template)
    (templatesDir cacheDir tmpRoot tmpRoot' : List String)
    (cloneResult cloneResult' : Except String TreeOut)
    (copyOut copyOut' : CopyOutcome) (now now' : String)
    (h : pathExists fs (cacheDir ++ [t.name]) = true) :
    ensureTemplateCache fs t false templatesDir cacheDir tmpRoot cloneResult
        copyOut now = (fs, Except.ok (cacheDir ++ [t.name])) ∧
    ensureTemplateCache
        (ensureTemplateCache fs t false templatesDir cacheDir tmpRoot
          cloneResult copyOut now).1
        t false templatesDir cacheDir tmpRoot' cloneResult' copyOut' now' =
      (fs, Except.ok (cacheDir ++ [t.name])) := by
  have h1 : ensureTemplateCache fs t false templatesDir cacheDir tmpRoot
      cloneResult copyOut now = (fs, Except.ok (cacheDir ++ [t.name])) := by
    unfold ensureTemplateCache
    simp [h]
  refine ⟨h1, ?_⟩
  rw [h1]
  unfold ensureTemplateCache
  simp [h]

/-- Witness for C2 at a concrete state: `cache/basic` exists in `fixFs`,
and both consecutive non-forced calls return it without touching the
file system, even though the supplied clone outcome is a failure. -/
theorem c2_witness :
    pathExists fixFs (["cache"] ++ [fixLocal.name]) = true ∧
    ensureTemplateCache fixFs fixLocal false ["tpl"] ["cache"] ["tmp", "x"]
        (Except.error "network down") CopyOutcome.full "now" =
      (fixFs, Except.ok (["cache"] ++ [fixLocal.name])) := by
  refine ⟨by decide, ?_⟩
  exact (c2_cache_hit_idempotent fixFs fixLocal ["tpl"] ["cache"] ["tmp", "x"]
    ["tmp", "x"] (Except.error "network down") (Except.error "network down")
    CopyOutcome.full CopyOutcome.full "now" "now" (by decide)).1

/-! ## Claim C7: reconciliation swallows every failure -/

/-- C7: the reconciliation function is total (it never raises to its
caller), and whenever any of the modelled failures occurs — the user or
default manifest file is missing, the default manifest fails to read or
is not an array, or the final save throws — the user manifest file is
not rewritten, i.e. it is left in its pre-reconciliation state. -/
theorem c7_reconcile_never_raises (userExists defaultExists : Bool)
    (baseRead : Option BaseDoc) (userRead : Option UserDoc)
    (saveFails : Bool)
    (h : userExists = false ∨ defaultExists = false ∨ baseRead = none ∨
      saveFails = true) :
    reconcileTemplateManifestWithDefaults userExists defaultExists baseRead
      userRead saveFails = none := by
  unfold reconcileTemplateManifestWithDefaults
  rcases h with h | h | h | h
  · simp [h]
  · cases userExists <;> simp [h]
  · cases userExists <;> cases defaultExists <;> simp [h]
  · subst h
    cases userExists <;> cases defaultExists <;> cases baseRead <;> simp

/-- Witness for C7: a failing save on a merge that would otherwise
rewrite the manifest (the default adds a new entry) leaves the user
manifest file untouched. -/
theorem c7_witness :
    reconcileTemplateManifestWithDefaults true true (some fixBaseA)
      (some fixUserMine) true = none :=
  c7_reconcile_never_raises true true (some fixBaseA) (some fixUserMine) true
    (Or.inr (Or.inr (Or.inr rfl)))

/-! ## Claim C8: sequential fail-fast bootstrap -/

theorem runSteps_pre_ok (world : Step → SpawnOutcome) (pre : List Step)
    (hpre : ∀ s ∈ pre, runShellCommand s.command (world s) = Except.ok ())
    (rest : List Step) :
    runSteps world (pre ++ rest) =
      (pre ++ (runSteps world rest).1, (runSteps world rest).2) := by
  induction pre with
  | nil => simp
  | cons s ss ih =>
    have hs := hpre s (by simp)
    have ih' := ih (fun x hx => hpre x (by simp [hx]))
    simp [runSteps, hs, ih']

/-- C8: `bootstrapTemplateDestination` runs the composed plan
sequentially and fail-fast: when the plan decomposes as
`pre ++ b :: post` with every step of `pre` succeeding and `b`'s
command failing (non-zero exit or spawn failure, reported as `msg`),
the call raises `Step "<b.name>" failed: <msg>` and the executed trace
is exactly `pre ++ [b]` — no step of `post` is ever handed to the
shell. -/
theorem c8_fail_fast (t : Template) (destination : List String)
    (d : DirState) (world : Step → SpawnOutcome) (pre : List Step)
    (b : Step) (post : List Step) (msg : String)
    (hplan : bootstrapSteps t destination d = pre ++ b :: post)
    (hpre : ∀ s ∈ pre, runShellCommand s.command (world s) = Except.ok ())
    (hb : runShellCommand b.command (world b) = Except.error msg) :
    bootstrapTemplateDestination t destination d world =
      (pre ++ [b],
        Except.error ("Step \"" ++ b.name ++ "\" failed: " ++ msg)) := by
  unfold bootstrapTemplateDestination
  dsimp only
  rw [hplan, runSteps_pre_ok world pre hpre (b :: post)]
  simp [runSteps, hb]

/-- Witness for C8: the plan `[a, B, c]` of `fixPlanTpl` under a world
where `b` exits 1 runs only `a` and `B`, raising the wrapped error that
names step `B`; step `c` is never executed. -/
theorem c8_witness :
    bootstrapSteps fixPlanTpl ["dest"] fixDirEmpty =
      [fixStepA] ++ fixStepB :: [fixStepC] ∧
    bootstrapTemplateDestination fixPlanTpl ["dest"] fixDirEmpty fixWorld =
      ([fixStepA] ++ [fixStepB],
        Except.error ("Step \"" ++ fixStepB.name ++ "\" failed: " ++
          "Command failed (b) with exit code 1")) := by
  refine ⟨by decide, ?_⟩
  exact c8_fail_fast fixPlanTpl ["dest"] fixDirEmpty fixWorld [fixStepA]
    fixStepB [fixStepC] "Command failed (b) with exit code 1" (by decide)
    (by intro s hs; rw [List.mem_singleton] at hs; subst hs; rfl) rfl

/-! ## Claim C9: ordered lockfile probe and synthesized install -/

/-- C9: without a pinned manager, detection probes the lockfiles in the
fixed order `pnpm-lock.yaml`, `yarn.lock`, `bun.lockb`,
`package-lock.json` and the first present one wins; with no lockfile it
falls back to `npm` exactly when `package.json` exists and to `none`
otherwise; and when an install command is synthesized it is the
detected manager's install invocation. -/
theorem c9_lockfile_probe_order (d : DirState) (t : Template)
    (destination : List String) (bc : BootstrapConfig) :
    (d.hasPnpmLock = true → detectPackageManager d none = some "pnpm") ∧
    (d.hasPnpmLock = false → d.hasYarnLock = true →
      detectPackageManager d none = some "yarn") ∧
    (d.hasPnpmLock = false → d.hasYarnLock = false → d.hasBunLock = true →
      detectPackageManager d none = some "bun") ∧
    (d.hasPnpmLock = false → d.hasYarnLock = false → d.hasBunLock = false →
      d.hasPackageLock = true → detectPackageManager d none = some "npm") ∧
    (d.hasPnpmLock = false → d.hasYarnLock = false → d.hasBunLock = false →
      d.hasPackageLock = false → d.packageJsonExists = true →
      detectPackageManager d none = some "npm") ∧
    (d.hasPnpmLock = false → d.hasYarnLock = false → d.hasBunLock = false →
      d.hasPackageLock = false → d.packageJsonExists = false →
      detectPackageManager d none = none) ∧
    (∀ pj m c, t.bootstrap = some bc → bc.packageManager = none →
      bc.installCommand = none → d.packageJson = some pj →
      detectPackageManager d none = some m →
      packageManagerInstall m = some c →
      ∃ rest, bootstrapSteps t destination d =
        { name := "Install dependencies", command := c,
          cwd := resolveBootstrapCwd destination bc.installCwd,
          env := bc.installEnv } :: rest) := by
  refine ⟨?_, ?_, ?_, ?_, ?_, ?_, ?_⟩
  · intro h1; simp [detectPackageManager, truthyStr, h1]
  · intro h1 h2; simp [detectPackageManager, truthyStr, h1, h2]
  · intro h1 h2 h3; simp [detectPackageManager, truthyStr, h1, h2, h3]
  · intro h1 h2 h3 h4; simp [detectPackageManager, truthyStr, h1, h2, h3, h4]
  · intro h1 h2 h3 h4 h5
    simp [detectPackageManager, truthyStr, h1, h2, h3, h4, h5]
  · intro h1 h2 h3 h4 h5
    simp [detectPackageManager, truthyStr, h1, h2, h3, h4, h5]
  · intro pj m c hb hpm hic hpj hdet hinst
    unfold bootstrapSteps
    rw [hb]
    simp only [Option.getD_some, hpm, hic, hpj, hdet, hinst, orTruthy,
      List.singleton_append]
    exact ⟨_, rfl⟩

/-- Witness for C9, the spec's own scenario: a destination with only a
`yarn.lock` (no pnpm lockfile) yields manager `yarn`, and the
synthesized install step is `yarn install`. -/
theorem c9_witness :
    detectPackageManager fixDirYarn none = some "yarn" ∧
    ∃ rest, bootstrapSteps fixEmptyBootTpl ["dest"] fixDirYarn =
      { name := "Install dependencies", command := "yarn install",
        cwd := ["dest"], env := none } :: rest := by
  constructor
  · exact (c9_lockfile_probe_order fixDirYarn fixEmptyBootTpl ["dest"]
      {}).2.1 rfl rfl
  · exact (c9_lockfile_probe_order fixDirYarn fixEmptyBootTpl ["dest"]
      {}).2.2.2.2.2.2 { scripts := some { dev := some "vite" } } "yarn"
      "yarn install" rfl rfl rfl rfl
      ((c9_lockfile_probe_order fixDirYarn fixEmptyBootTpl ["dest"]
        {}).2.1 rfl rfl) rfl

/-! ## Claim C10: a pinned packageManager bypasses all probing -/

/-- C10: when the entry's bootstrap configuration pins a (truthy)
`packageManager`, detection returns exactly that value for every
destination state — no lockfile or `package.json` probe can change it —
and the synthesized install and dev commands are that manager's
invocations whatever lockfiles are present. -/
theorem c10_pinned_manager (d : DirState) (pm : String) (hpm : ¬ pm = "")
    (t : Template) (destination : List String) (bc : BootstrapConfig)
    (hb : t.bootstrap = some bc) (hpref : bc.packageManager = some pm) :
    detectPackageManager d bc.packageManager = some pm ∧
    (∀ pj c, bc.installCommand = none → d.packageJson = some pj →
      packageManagerInstall pm = some c →
      ∃ rest, bootstrapSteps t destination d =
        { name := "Install dependencies", command := c,
          cwd := resolveBootstrapCwd destination bc.installCwd,
          env := bc.installEnv } :: rest) ∧
    (∀ pj scr cd, bc.devCommand = none → d.packageJson = some pj →
      pj.scripts = some scr → truthyStr scr.dev = true →
      packageManagerDev pm = some cd →
      resolveDevCommand t d = some cd) := by
  have hdet : detectPackageManager d bc.packageManager = some pm := by
    rw [hpref]
    simp [detectPackageManager, truthyStr, hpm]
  refine ⟨hdet, ?_, ?_⟩
  · intro pj c hic hpj hinst
    unfold bootstrapSteps
    rw [hb]
    simp only [Option.getD_some, hic, hpj, hdet, hinst, orTruthy,
      List.singleton_append]
    exact ⟨_, rfl⟩
  · intro pj scr cd hdc hpj hscr hdev hcmd
    unfold resolveDevCommand
    rw [hb]
    simp only [Option.getD_some, hdc, hpj, hdet, hscr, hdev, hcmd, orTruthy]
    simp

/-- Witness for C10: a destination full of competing lockfiles
(`pnpm-lock.yaml` and `yarn.lock`) still yields the pinned manager
`bun`, a `bun install` install step and a `bun dev` dev command. -/
theorem c10_witness :
    detectPackageManager fixDirPnpm
        (some ("bun" : String)) = some "bun" ∧
    (∃ rest, bootstrapSteps fixPreferredTpl ["dest"] fixDirPnpm =
      { name := "Install dependencies", command := "bun install",
        cwd := ["dest"], env := none } :: rest) ∧
    resolveDevCommand fixPreferredTpl fixDirPnpm = some "bun dev" := by
  have h := c10_pinned_manager fixDirPnpm "bun" (by decide) fixPreferredTpl
    ["dest"] { packageManager := some "bun" } rfl rfl
  refine ⟨h.1, ?_, ?_⟩
  · exact h.2.1 { scripts := some { dev := some "vite" } } "bun install" rfl
      rfl rfl
  · exact h.2.2 { scripts := some { dev := some "vite" } }
      { dev := some "vite" } "bun dev" rfl rfl rfl (by decide) rfl

/-! ## Reconciliation loop lemmas -/

theorem overwriteEntry_name (e t : Template) :
    (overwriteEntry e t).1.name = e.name := rfl

theorem mergeField_some {α : Type} [DecidableEq α] (v : α) (x : Option α) :
    (mergeField (some v) x).1 = some v := by
  cases x with
  | none => rfl
  | some w => by_cases hw : w = v <;> simp [mergeField, hw]

theorem mergeField_id_of_not_changed {α : Type} [DecidableEq α]
    (a x : Option α) (h : (mergeField a x).2 = false) :
    (mergeField a x).1 = x := by
  cases a with
  | none => rfl
  | some v =>
    cases x with
    | none => simp [mergeField] at h
    | some w =>
      by_cases hw : w = v
      · simp [mergeField, hw]
      · simp [mergeField, hw] at h

theorem overwriteEntry_id_of_not_changed (e t : Template)
    (h : (overwriteEntry e t).2 = false) : (overwriteEntry e t).1 = e := by
  unfold overwriteEntry at h ⊢
  simp only [Bool.or_eq_false_iff] at h
  obtain ⟨⟨⟨⟨⟨⟨⟨⟨h1, h2⟩, h3⟩, h4⟩, h5⟩, h6⟩, h7⟩, h8⟩, h9⟩ := h
  rw [mergeField_id_of_not_changed _ _ h1, mergeField_id_of_not_changed _ _ h2,
    mergeField_id_of_not_changed _ _ h3, mergeField_id_of_not_changed _ _ h4,
    mergeField_id_of_not_changed _ _ h5, mergeField_id_of_not_changed _ _ h6,
    mergeField_id_of_not_changed _ _ h7, mergeField_id_of_not_changed _ _ h8,
    mergeField_id_of_not_changed _ _ h9]

theorem initIndex_sound (ts : List Template) (k : Nat) (n : String) (i : Nat)
    (h : initIndex ts k n = some i) :
    k ≤ i ∧ ∃ e, ts[i - k]? = some e ∧ e.name = n := by
  induction ts generalizing k with
  | nil => simp [initIndex] at h
  | cons t rest ih =>
    unfold initIndex at h
    cases hr : initIndex rest (k + 1) n with
    | some j =>
      rw [hr] at h
      have hji : j = i := Option.some.inj h
      rw [hji] at hr
      obtain ⟨hk, e, he, hn⟩ := ih (k + 1) hr
      refine ⟨by omega, e, ?_, hn⟩
      have hik : i - k = (i - (k + 1)) + 1 := by omega
      rw [hik]
      simpa using he
    | none =>
      rw [hr] at h
      by_cases hn : n = t.name
      · rw [if_pos hn] at h
        injection h with h
        subst h
        exact ⟨Nat.le_refl k, t, by simp, hn.symm⟩
      · rw [if_neg hn] at h
        cases h

theorem initIndex_none_of_not_mem (ts : List Template) (k : Nat) (n : String)
    (h : n ∉ ts.map (·.name)) : initIndex ts k n = none := by
  induction ts generalizing k with
  | nil => rfl
  | cons t rest ih =>
    simp only [List.map_cons, List.mem_cons, not_or] at h
    unfold initIndex
    rw [ih (k + 1) h.2, if_neg h.1]

theorem initIndex_tracks_aux (ts : List Template) (u : Template) (k : Nat)
    (hnd : (ts.map (·.name)).Nodup) (hu : u ∈ ts) :
    ∃ i, initIndex ts k u.name = some (k + i) ∧ ts[i]? = some u := by
  induction ts generalizing k with
  | nil => cases hu
  | cons t rest ih =>
    rw [List.map_cons, List.nodup_cons] at hnd
    rcases List.mem_cons.mp hu with hu | hu
    · subst hu
      have h0 := initIndex_none_of_not_mem rest (k + 1) u.name hnd.1
      refine ⟨0, ?_, by simp⟩
      unfold initIndex
      rw [h0]
      simp
    · obtain ⟨i, hi, he⟩ := ih (k + 1) hnd.2 hu
      refine ⟨i + 1, ?_, by simpa using he⟩
      unfold initIndex
      rw [hi]
      exact congrArg some (by omega)

theorem state0_indexConsistent (ts : List Template) :
    indexConsistent
      { merged := ts, index := initIndex ts 0, changed := false } := by
  intro n i h
  obtain ⟨-, e, he, hn⟩ := initIndex_sound ts 0 n i h
  exact ⟨e, by simpa using he, hn⟩

theorem reconcileStep_skip (st : LoopState) (tpl : Template)
    (h : tpl.name = "") : reconcileStep st tpl = st := by
  simp [reconcileStep, h]

theorem reconcileStep_overwrite (st : LoopState) (tpl : Template)
    (hname : ¬ tpl.name = "") (i : Nat) (hidx : st.index tpl.name = some i)
    (existing : Template) (hget : st.merged[i]? = some existing) :
    reconcileStep st tpl =
      { st with
          merged := st.merged.set i (overwriteEntry existing tpl).1,
          changed := st.changed || (overwriteEntry existing tpl).2 } := by
  simp [reconcileStep, hname, hidx, hget]

theorem reconcileStep_stale (st : LoopState) (tpl : Template)
    (hname : ¬ tpl.name = "") (i : Nat) (hidx : st.index tpl.name = some i)
    (hget : st.merged[i]? = none) : reconcileStep st tpl = st := by
  simp [reconcileStep, hname, hidx, hget]

theorem reconcileStep_push (st : LoopState) (tpl : Template)
    (hname : ¬ tpl.name = "") (hidx : st.index tpl.name = none) :
    reconcileStep st tpl =
      { merged := st.merged ++ [tpl],
        index := fun n =>
          if n = tpl.name then some st.merged.length else st.index n,
        changed := true } := by
  simp [reconcileStep, hname, hidx]

theorem reconcileStep_indexConsistent (st : LoopState) (tpl : Template)
    (h : indexConsistent st) : indexConsistent (reconcileStep st tpl) := by
  by_cases hname : tpl.name = ""
  · rw [reconcileStep_skip st tpl hname]; exact h
  · cases hidx : st.index tpl.name with
    | some i =>
      cases hget : st.merged[i]? with
      | some existing =>
        rw [reconcileStep_overwrite st tpl hname i hidx existing hget]
        intro n j hj
        obtain ⟨e, he, hn⟩ := h n j hj
        by_cases hij : j = i
        · rw [hij] at he ⊢
          have hlen : i < st.merged.length :=
            (List.getElem?_eq_some_iff.mp hget).1
          refine ⟨(overwriteEntry existing tpl).1, ?_, ?_⟩
          · simp [List.getElem?_set_self hlen]
          · rw [overwriteEntry_name]
            rw [hget] at he
            have he' : existing = e := Option.some.inj he
            rw [he', hn]
        · refine ⟨e, ?_, hn⟩
          rw [List.getElem?_set_ne (fun hc => hij hc.symm)]
          exact he
      | none =>
        rw [reconcileStep_stale st tpl hname i hidx hget]; exact h
    | none =>
      rw [reconcileStep_push st tpl hname hidx]
      intro n j hj
      dsimp only at hj ⊢
      by_cases hn : n = tpl.name
      · rw [if_pos hn] at hj
        have hj' : st.merged.length = j := Option.some.inj hj
        rw [← hj']
        exact ⟨tpl, List.getElem?_concat_length _ _, hn.symm⟩
      · rw [if_neg hn] at hj
        obtain ⟨e, he, hne⟩ := h n j hj
        have hlen : j < st.merged.length :=
          (List.getElem?_eq_some_iff.mp he).1
        refine ⟨e, ?_, hne⟩
        rw [List.getElem?_append_left hlen]
        exact he

theorem reconcileStep_mem (st : LoopState) (tpl u : Template)
    (hI : indexConsistent st) (hmem : u ∈ st.merged)
    (hne : tpl.name ≠ u.name) : u ∈ (reconcileStep st tpl).merged := by
  by_cases hname : tpl.name = ""
  · rw [reconcileStep_skip st tpl hname]; exact hmem
  · cases hidx : st.index tpl.name with
    | some i =>
      cases hget : st.merged[i]? with
      | some existing =>
        rw [reconcileStep_overwrite st tpl hname i hidx existing hget]
        obtain ⟨j, hj⟩ := List.mem_iff_getElem?.mp hmem
        by_cases hij : j = i
        · rw [hij, hget] at hj
          obtain ⟨e, he, hn⟩ := hI tpl.name i hidx
          rw [hget] at he
          have h1 : existing = u := Option.some.inj hj
          have h2 : existing = e := Option.some.inj he
          rw [← h2, h1] at hn
          exact absurd hn.symm hne
        · refine List.getElem?_mem (n := j) ?_
          rw [List.getElem?_set_ne (fun hc => hij hc.symm)]
          exact hj
      | none =>
        rw [reconcileStep_stale st tpl hname i hidx hget]; exact hmem
    | none =>
      rw [reconcileStep_push st tpl hname hidx]
      exact List.mem_append_left _ hmem

theorem reconcileStep_tracksAt (st : LoopState) (tpl : Template) (n : String)
    (i : Nat) (w : Template) (hI : indexConsistent st)
    (ht : tracksAt st n i w) (hne : tpl.name ≠ n) :
    tracksAt (reconcileStep st tpl) n i w := by
  obtain ⟨hti, htw⟩ := ht
  by_cases hname : tpl.name = ""
  · rw [reconcileStep_skip st tpl hname]; exact ⟨hti, htw⟩
  · cases hidx : st.index tpl.name with
    | some j =>
      cases hget : st.merged[j]? with
      | some existing =>
        rw [reconcileStep_overwrite st tpl hname j hidx existing hget]
        have hij : i ≠ j := by
          intro hc
          obtain ⟨e, he, hn1⟩ := hI tpl.name j hidx
          obtain ⟨e', he', hn2⟩ := hI n i hti
          rw [hc, he] at he'
          have hee : e = e' := Option.some.inj he'
          exact hne (by rw [← hn1, hee, hn2])
        refine ⟨hti, ?_⟩
        dsimp only
        rw [List.getElem?_set_ne (Ne.symm hij)]
        exact htw
      | none =>
        rw [reconcileStep_stale st tpl hname j hidx hget]; exact ⟨hti, htw⟩
    | none =>
      rw [reconcileStep_push st tpl hname hidx]
      have hlen : i < st.merged.length := (List.getElem?_eq_some_iff.mp htw).1
      refine ⟨?_, ?_⟩
      · dsimp only
        rw [if_neg (fun hc => hne hc.symm)]
        exact hti
      · dsimp only
        rw [List.getElem?_append_left hlen]
        exact htw

theorem reconcileStep_changed_mono (st : LoopState) (tpl : Template)
    (h : (reconcileStep st tpl).changed = false) : st.changed = false := by
  by_cases hname : tpl.name = ""
  · rw [reconcileStep_skip st tpl hname] at h; exact h
  · cases hidx : st.index tpl.name with
    | some i =>
      cases hget : st.merged[i]? with
      | some existing =>
        rw [reconcileStep_overwrite st tpl hname i hidx existing hget] at h
        exact (Bool.or_eq_false_iff.mp h).1
      | none =>
        rw [reconcileStep_stale st tpl hname i hidx hget] at h; exact h
    | none =>
      rw [reconcileStep_push st tpl hname hidx] at h
      cases h

theorem foldl_indexConsistent (l : List Template) (st : LoopState)
    (h : indexConsistent st) :
    indexConsistent (l.foldl reconcileStep st) := by
  induction l generalizing st with
  | nil => exact h
  | cons t rest ih => exact ih _ (reconcileStep_indexConsistent st t h)

theorem foldl_mem (l : List Template) (st : LoopState) (u : Template)
    (hI : indexConsistent st) (hmem : u ∈ st.merged)
    (hne : ∀ x ∈ l, x.name ≠ u.name) :
    u ∈ (l.foldl reconcileStep st).merged := by
  induction l generalizing st with
  | nil => exact hmem
  | cons t rest ih =>
    exact ih _ (reconcileStep_indexConsistent st t hI)
      (reconcileStep_mem st t u hI hmem (hne t (by simp)))
      (fun x hx => hne x (by simp [hx]))

theorem foldl_tracksAt (l : List Template) (st : LoopState) (n : String)
    (i : Nat) (w : Template) (hI : indexConsistent st)
    (ht : tracksAt st n i w) (hne : ∀ x ∈ l, x.name ≠ n) :
    tracksAt (l.foldl reconcileStep st) n i w := by
  induction l generalizing st with
  | nil => exact ht
  | cons t rest ih =>
    exact ih _ (reconcileStep_indexConsistent st t hI)
      (reconcileStep_tracksAt st t n i w hI ht (hne t (by simp)))
      (fun x hx => hne x (by simp [hx]))

theorem foldl_changed_mono (l : List Template) (st : LoopState)
    (h : (l.foldl reconcileStep st).changed = false) : st.changed = false := by
  induction l generalizing st with
  | nil => exact h
  | cons t rest ih => exact reconcileStep_changed_mono st t (ih _ h)

theorem mem_insertByKey (x t : Template) (l : List Template) :
    x ∈ insertByKey t l ↔ x = t ∨ x ∈ l := by
  induction l with
  | nil => simp [insertByKey]
  | cons h rest ih =>
    by_cases hc : sortKeyOf t ≤ sortKeyOf h
    · simp [insertByKey, hc]
    · simp only [insertByKey, if_neg hc, List.mem_cons, ih]
      tauto

theorem mem_sortByTitle (x : Template) (l : List Template) :
    x ∈ sortByTitle l ↔ x ∈ l := by
  induction l with
  | nil => exact Iff.rfl
  | cons h rest ih => simp [sortByTitle, mem_insertByKey, ih]

theorem reconcile_main_spec (base : BaseDoc) (ud : UserDoc)
    (saveFails : Bool) :
    reconcileTemplateManifestWithDefaults true true (some base) (some ud)
        saveFails =
      if (reconcileMergeResult base (loadTemplateManifest (some ud))).changed
          || !((loadTemplateManifest (some ud)).version =
            max (base.version.getD 1)
              (loadTemplateManifest (some ud)).version) then
        if saveFails then none
        else
          some
            { version :=
                max (base.version.getD 1)
                  (loadTemplateManifest (some ud)).version,
              templates :=
                sortByTitle
                  (reconcileMergeResult base
                    (loadTemplateManifest (some ud))).merged }
      else none := by
  unfold reconcileTemplateManifestWithDefaults
  dsimp only
  cases hch : (reconcileMergeResult base
      (loadTemplateManifest (some ud))).changed
      || !((loadTemplateManifest (some ud)).version =
        max (base.version.getD 1) (loadTemplateManifest (some ud)).version) with
  | false => simp
  | true => simp

/-! ## Claim C4: user-only entries survive reconciliation -/

/-- C4: an entry of the user manifest whose name occurs in no default
manifest entry is still present, with all of its fields unchanged, in
the user manifest after reconciliation — whether or not the manifest
file was rewritten (and even if the save failed). -/
theorem c4_user_only_entries_preserved (base : BaseDoc) (ud : UserDoc)
    (ts : List Template) (hts : ud.templates = some ts) (u : Template)
    (hu : u ∈ ts) (hname : ∀ b ∈ base.templates, b.name ≠ u.name)
    (saveFails : Bool) :
    u ∈ finalUserTemplates
        (reconcileTemplateManifestWithDefaults true true (some base)
          (some ud) saveFails) ts := by
  have huser : loadTemplateManifest (some ud) =
      { version := ud.version.getD 1, templates := ts } := by
    simp [loadTemplateManifest, hts]
  have hmem : u ∈ (reconcileMergeResult base
      (loadTemplateManifest (some ud))).merged := by
    rw [huser]
    unfold reconcileMergeResult
    exact foldl_mem base.templates _ u (state0_indexConsistent ts) hu hname
  rw [reconcile_main_spec]
  cases hch : (reconcileMergeResult base
      (loadTemplateManifest (some ud))).changed
      || !((loadTemplateManifest (some ud)).version =
        max (base.version.getD 1) (loadTemplateManifest (some ud)).version) with
  | false => simpa [finalUserTemplates] using hu
  | true =>
    cases saveFails with
    | true => simpa [finalUserTemplates] using hu
    | false =>
      simp only [finalUserTemplates, if_true]
      exact (mem_sortByTitle u _).mpr hmem

/-- Witness for C4: the user-only entry `mine` survives a
reconciliation in which the default manifest adds its own entry `a` and
bumps the version. -/
theorem c4_witness :
    ({ name := "mine", ref := some "dev" } : Template) ∈
      finalUserTemplates
        (reconcileTemplateManifestWithDefaults true true (some fixBaseA)
          (some fixUserMine) false)
        [{ name := "mine", ref := some "dev" }] :=
  c4_user_only_entries_preserved fixBaseA fixUserMine
    [{ name := "mine", ref := some "dev" }] rfl
    { name := "mine", ref := some "dev" } (by simp)
    (by intro b hb; simp [fixBaseA] at hb; subst hb; decide) false

/-! ## Claim C5: default fields overwrite user fields -/

/-- Counterexample to C5 as stated: the default entry `x` leaves `title`
undefined while the user entry carries `title = "custom"`; the two
values differ, yet reconciliation performs no overwrite at all (the
manifest is not even rewritten), so afterwards the user entry's `title`
is still `"custom"` and does not equal the default's. -/
theorem c5_counterexample :
    reconcileTemplateManifestWithDefaults true true (some fixBaseNoTitle)
        (some fixUserCustomTitle) false = none ∧
    fixBaseNoTitle.templates.map (fun x => x.title) = [none] ∧
    (fixUserCustomTitle.templates.getD []).map (fun x => x.title) =
      [some "custom"] ∧
    (some "custom" : Option String) ≠ none := by
  refine ⟨by decide, rfl, rfl, by decide⟩

theorem merge_split (base : BaseDoc) (user : Manifest)
    (l1 l2 : List Template) (b : Template)
    (hsplit : base.templates = l1 ++ b :: l2) :
    reconcileMergeResult base user =
      l2.foldl reconcileStep
        (reconcileStep
          (l1.foldl reconcileStep
            { merged := user.templates, index := initIndex user.templates 0,
              changed := false }) b) := by
  unfold reconcileMergeResult
  rw [hsplit, List.foldl_append]
  rfl

/-- C5 corrected: for a default entry `b` matched by name with a user
entry `u` (names unique in both manifests), reconciliation leaves in
the user manifest an entry with `u`'s name whose fields equal the
default's **on every field the default entry defines**; a field the
default leaves undefined is skipped, so a differing user value survives
there (see the counterexample). -/
theorem c5_defined_default_fields_overwrite (base : BaseDoc) (ud : UserDoc)
    (ts : List Template) (hts : ud.templates = some ts)
    (hndU : (ts.map (fun x => x.name)).Nodup)
    (hndB : (base.templates.map (fun x => x.name)).Nodup)
    (u b : Template) (hu : u ∈ ts) (hb : b ∈ base.templates)
    (hbu : b.name = u.name) (hbn : ¬ b.name = "") :
    ∃ u', u' ∈ finalUserTemplates
        (reconcileTemplateManifestWithDefaults true true (some base)
          (some ud) false) ts ∧
      u'.name = u.name ∧
      (∀ v, b.title = some v → u'.title = some v) ∧
      (∀ v, b.description = some v → u'.description = some v) ∧
      (∀ v, b.source = some v → u'.source = some v) ∧
      (∀ v, b.repo = some v → u'.repo = some v) ∧
      (∀ v, b.ref = some v → u'.ref = some v) ∧
      (∀ v, b.subdir = some v → u'.subdir = some v) ∧
      (∀ v, b.localPath = some v → u'.localPath = some v) ∧
      (∀ v, b.featured = some v → u'.featured = some v) ∧
      (∀ v, b.bootstrap = some v → u'.bootstrap = some v) := by
  obtain ⟨l1, l2, hsplit⟩ := List.append_of_mem hb
  have hnames : (∀ x ∈ l1, x.name ≠ b.name) ∧
      (∀ x ∈ l2, x.name ≠ b.name) := by
    rw [hsplit, List.map_append, List.map_cons, List.nodup_append] at hndB
    obtain ⟨h1, h2, h3⟩ := hndB
    rw [List.nodup_cons] at h2
    constructor
    · intro x hx hc
      exact h3 (List.mem_map_of_mem _ hx)
        (by rw [hc]; exact List.mem_cons_self _ _)
    · intro x hx hc
      exact h2.1 (by rw [← hc]; exact List.mem_map_of_mem _ hx)
  have huser : loadTemplateManifest (some ud) =
      { version := ud.version.getD 1, templates := ts } := by
    simp [loadTemplateManifest, hts]
  obtain ⟨i, hii, hie⟩ := initIndex_tracks_aux ts u 0 hndU hu
  have hii' : initIndex ts 0 u.name = some i := by simpa using hii
  have hI0 : indexConsistent
      { merged := ts, index := initIndex ts 0, changed := false } :=
    state0_indexConsistent ts
  have ht0 : tracksAt
      { merged := ts, index := initIndex ts 0, changed := false }
      u.name i u := ⟨hii', hie⟩
  have hI1 : indexConsistent (l1.foldl reconcileStep
      { merged := ts, index := initIndex ts 0, changed := false }) :=
    foldl_indexConsistent l1 _ hI0
  have ht1 : tracksAt (l1.foldl reconcileStep
      { merged := ts, index := initIndex ts 0, changed := false })
      u.name i u :=
    foldl_tracksAt l1 _ u.name i u hI0 ht0
      (fun x hx hc => hnames.1 x hx (by rw [hbu]; exact hc))
  have hidx1 : (l1.foldl reconcileStep
      { merged := ts, index := initIndex ts 0, changed := false }).index
        b.name = some i := by
    rw [hbu]; exact ht1.1
  have hstep := reconcileStep_overwrite _ b hbn i hidx1 u ht1.2
  have hlen1 : i < (l1.foldl reconcileStep
      { merged := ts, index := initIndex ts 0,
        changed := false }).merged.length :=
    (List.getElem?_eq_some_iff.mp ht1.2).1
  have hI2 : indexConsistent (reconcileStep (l1.foldl reconcileStep
      { merged := ts, index := initIndex ts 0, changed := false }) b) :=
    reconcileStep_indexConsistent _ b hI1
  have ht2 : tracksAt (reconcileStep (l1.foldl reconcileStep
      { merged := ts, index := initIndex ts 0, changed := false }) b)
      u.name i (overwriteEntry u b).1 := by
    rw [hstep]
    refine ⟨ht1.1, ?_⟩
    dsimp only
    rw [List.getElem?_set_self hlen1]
  have hI3 : indexConsistent (l2.foldl reconcileStep
      (reconcileStep (l1.foldl reconcileStep
        { merged := ts, index := initIndex ts 0, changed := false }) b)) :=
    foldl_indexConsistent l2 _ hI2
  have ht3 : tracksAt (l2.foldl reconcileStep
      (reconcileStep (l1.foldl reconcileStep
        { merged := ts, index := initIndex ts 0, changed := false }) b))
      u.name i (overwriteEntry u b).1 :=
    foldl_tracksAt l2 _ u.name i _ hI2 ht2
      (fun x hx hc => hnames.2 x hx (by rw [hbu]; exact hc))
  have hmc : reconcileMergeResult base (loadTemplateManifest (some ud)) =
      l2.foldl reconcileStep
        (reconcileStep (l1.foldl reconcileStep
          { merged := ts, index := initIndex ts 0, changed := false }) b) := by
    rw [merge_split base _ l1 l2 b hsplit, huser]
  refine ⟨(overwriteEntry u b).1, ?_, overwriteEntry_name u b,
    ?_, ?_, ?_, ?_, ?_, ?_, ?_, ?_, ?_⟩
  · rw [reconcile_main_spec]
    cases hch : (reconcileMergeResult base
        (loadTemplateManifest (some ud))).changed
        || !((loadTemplateManifest (some ud)).version =
          max (base.version.getD 1)
            (loadTemplateManifest (some ud)).version) with
    | true =>
      simp only [finalUserTemplates, if_true, Bool.false_eq_true, if_false]
      rw [mem_sortByTitle, hmc]
      exact List.getElem?_mem ht3.2
    | false =>
      simp only [finalUserTemplates, Bool.false_eq_true, if_false]
      have hch0 : (reconcileMergeResult base
          (loadTemplateManifest (some ud))).changed = false :=
        (Bool.or_eq_false_iff.mp hch).1
      rw [hmc] at hch0
      have hch1 := foldl_changed_mono l2 _ hch0
      rw [hstep] at hch1
      have hch2 : (overwriteEntry u b).2 = false :=
        (Bool.or_eq_false_iff.mp hch1).2
      rw [overwriteEntry_id_of_not_changed u b hch2]
      exact hu
  · intro v hv
    show (mergeField b.title u.title).1 = some v
    rw [hv]; exact mergeField_some v u.title
  · intro v hv
    show (mergeField b.description u.description).1 = some v
    rw [hv]; exact mergeField_some v u.description
  · intro v hv
    show (mergeField b.source u.source).1 = some v
    rw [hv]; exact mergeField_some v u.source
  · intro v hv
    show (mergeField b.repo u.repo).1 = some v
    rw [hv]; exact mergeField_some v u.repo
  · intro v hv
    show (mergeField b.ref u.ref).1 = some v
    rw [hv]; exact mergeField_some v u.ref
  · intro v hv
    show (mergeField b.subdir u.subdir).1 = some v
    rw [hv]; exact mergeField_some v u.subdir
  · intro v hv
    show (mergeField b.localPath u.localPath).1 = some v
    rw [hv]; exact mergeField_some v u.localPath
  · intro v hv
    show (mergeField b.featured u.featured).1 = some v
    rw [hv]; exact mergeField_some v u.featured
  · intro v hv
    show (mergeField b.bootstrap u.bootstrap).1 = some v
    rw [hv]; exact mergeField_some v u.bootstrap

/-- Witness for C5 (amended): the default pins entry `x`'s `ref` to
`main`, the user had retargeted it to `dev`; after reconciliation the
entry carries `ref = main`. -/
theorem c5_witness :
    ∃ u', u' ∈ finalUserTemplates
        (reconcileTemplateManifestWithDefaults true true (some fixBaseRef)
          (some fixUserRef) false) [{ name := "x", ref := some "dev" }] ∧
      u'.name = "x" ∧ u'.ref = some "main" := by
  obtain ⟨u', hmem, hname, _, _, _, _, href, _⟩ :=
    c5_defined_default_fields_overwrite fixBaseRef fixUserRef
      [{ name := "x", ref := some "dev" }] rfl (by decide) (by decide)
      { name := "x", ref := some "dev" } { name := "x", ref := some "main" }
      (by simp) (by simp [fixBaseRef]) rfl (by decide)
  exact ⟨u', hmem, hname, href "main" rfl⟩

/-! ## Claim C6: when the manifest is persisted, and with what version -/

/-- Counterexample to C6 as stated: with a default manifest at version 2
and an identical-entry user manifest at version 1, no append or
overwrite occurs in the merge loop, yet the user manifest **is**
rewritten (with version 2) — the version bump alone sets the `changed`
flag. -/
theorem c6_counterexample :
    (reconcileMergeResult fixBaseV2
      (loadTemplateManifest (some fixUserV1))).changed = false ∧
    reconcileTemplateManifestWithDefaults true true (some fixBaseV2)
        (some fixUserV1) false =
      some { version := 2, templates := [{ name := "x" }] } := by
  exact ⟨by decide, by decide⟩

/-- C6 corrected: the reconciliation persists the user manifest exactly
when an entry append/overwrite occurred **or** the user's version
differs from `max(defaultVersion, userVersion)`; every persisted
payload carries `version = max(defaultVersion, userVersion)`, and when
neither condition holds the file is not rewritten. -/
theorem c6_persist_on_changed_or_version (base : BaseDoc) (ud : UserDoc) :
    (∀ m, reconcileTemplateManifestWithDefaults true true (some base)
        (some ud) false = some m →
      m.version = max (base.version.getD 1)
        (loadTemplateManifest (some ud)).version) ∧
    ((reconcileMergeResult base
        (loadTemplateManifest (some ud))).changed = true →
      (reconcileTemplateManifestWithDefaults true true (some base) (some ud)
        false).isSome = true) ∧
    ((reconcileMergeResult base
        (loadTemplateManifest (some ud))).changed = false →
      (loadTemplateManifest (some ud)).version =
        max (base.version.getD 1) (loadTemplateManifest (some ud)).version →
      reconcileTemplateManifestWithDefaults true true (some base) (some ud)
        false = none) ∧
    ((reconcileMergeResult base
        (loadTemplateManifest (some ud))).changed = false →
      ¬ (loadTemplateManifest (some ud)).version =
        max (base.version.getD 1) (loadTemplateManifest (some ud)).version →
      (reconcileTemplateManifestWithDefaults true true (some base) (some ud)
        false).isSome = true) := by
  rw [reconcile_main_spec]
  refine ⟨?_, ?_, ?_, ?_⟩
  · intro m hm
    cases hch : (reconcileMergeResult base
        (loadTemplateManifest (some ud))).changed
        || !((loadTemplateManifest (some ud)).version =
          max (base.version.getD 1)
            (loadTemplateManifest (some ud)).version) with
    | false => rw [hch] at hm; simp at hm
    | true =>
      rw [hch] at hm
      simp only [if_true, Bool.false_eq_true, if_false] at hm
      have hm' := Option.some.inj hm
      rw [← hm']
  · intro hch
    simp [hch]
  · intro hch hv
    have hd : decide ((loadTemplateManifest (some ud)).version =
        max (base.version.getD 1)
          (loadTemplateManifest (some ud)).version) = true :=
      decide_eq_true hv
    rw [hch, hd]
    simp
  · intro hch hv
    have hd : decide ((loadTemplateManifest (some ud)).version =
        max (base.version.getD 1)
          (loadTemplateManifest (some ud)).version) = false :=
      decide_eq_false hv
    rw [hch, hd]
    simp

/-- Witness for C6 (amended): with `fixBaseV2`/`fixUserV1` (identical
entries, versions 2 and 1) the manifest is rewritten, and the persisted
version is `max(2, 1) = 2`. -/
theorem c6_witness :
    (reconcileTemplateManifestWithDefaults true true (some fixBaseV2)
      (some fixUserV1) false).isSome = true ∧
    ({ version := 2, templates := [({ name := "x" } : Template)] } :
        Manifest).version =
      max (fixBaseV2.version.getD 1)
        (loadTemplateManifest (some fixUserV1)).version := by
  refine ⟨?_, ?_⟩
  · exact (c6_persist_on_changed_or_version fixBaseV2 fixUserV1).2.2.2
      (by decide) (by decide)
  · exact (c6_persist_on_changed_or_version fixBaseV2 fixUserV1).1
      { version := 2, templates := [{ name := "x" }] } (by decide)

/-! ## Claim C3: failed fetches and the cache's final directory -/

theorem relativeTo_none_of_false (a b : List String)
    (h : pathUnderEq a b = false) : relativeTo a b = none := by
  unfold pathUnderEq at h
  cases hr : relativeTo a b with
  | none => rfl
  | some r => rw [hr] at h; simp at h

theorem target_ne_cacheDir (cacheDir : List String) (nm : String) :
    ¬ (cacheDir ++ [nm] = cacheDir) := by
  intro hcon
  have hl := congrArg List.length hcon
  simp at hl

theorem fs2_dirs_target (fs : FS) (cacheDir : List String) (nm : String) :
    (mkdir (removePath fs (cacheDir ++ [nm])) cacheDir).dirs
      (cacheDir ++ [nm]) = false := by
  simp [mkdir, removePath, target_ne_cacheDir cacheDir nm, pathUnderEq_refl]

theorem fs2_files_under_target (fs : FS) (cacheDir : List String)
    (nm : String) (p : List String)
    (hp : pathUnderEq (cacheDir ++ [nm]) p = true) :
    (mkdir (removePath fs (cacheDir ++ [nm])) cacheDir).files p = none := by
  simp [mkdir, removePath, hp]

theorem pathExists_fs2_target (fs : FS) (cacheDir : List String)
    (nm : String) :
    pathExists (mkdir (removePath fs (cacheDir ++ [nm])) cacheDir)
      (cacheDir ++ [nm]) = false := by
  unfold pathExists
  rw [fs2_dirs_target,
    fs2_files_under_target fs cacheDir nm _ (pathUnderEq_refl _)]
  rfl

theorem pathExists_cleanup_false (X : FS) (tmpRoot target : List String)
    (hX : pathUnderEq tmpRoot target = false →
      pathExists X target = false) :
    pathExists (removePath X tmpRoot) target = false := by
  cases hut : pathUnderEq tmpRoot target with
  | true => simp [pathExists, removePath, hut]
  | false =>
    have hpx := hX hut
    unfold pathExists at hpx ⊢
    unfold removePath
    dsimp only
    rw [hut]
    simpa using hpx

theorem target_ne_tmpRoot (tmpRoot target : List String)
    (h : pathUnderEq tmpRoot target = false) : ¬ (target = tmpRoot) := by
  intro hc
  rw [hc, pathUnderEq_refl] at h
  cases h

/-- C3 amended: every failing fetch that does not stem from the
destination copy itself — invalid repository identifier, clone failure,
missing subdirectory after the clone, or a missing local template path —
leaves the cache's final directory `cacheRoot/entry.name` absent, so a
later `ensure` call reattempts cleanly.  (The modelled copy outcome is
`full`, i.e. the destination copy is not the failing operation; a
failing destination copy can leave the directory partially populated,
see the counterexample.) -/
theorem c3_failed_fetch_leaves_cache_absent (fs : FS) (t : Template)
    (force : Bool) (templatesDir cacheDir tmpRoot : List String)
    (cloneResult : Except String TreeOut) (now : String) (e : String)
    (hres : (ensureTemplateCache fs t force templatesDir cacheDir tmpRoot
      cloneResult CopyOutcome.full now).2 = Except.error e) :
    pathExists (ensureTemplateCache fs t force templatesDir cacheDir tmpRoot
      cloneResult CopyOutcome.full now).1 (cacheDir ++ [t.name]) = false := by
  unfold ensureTemplateCache at hres ⊢
  by_cases hhit : (!force && pathExists fs (cacheDir ++ [t.name])) = true
  · rw [if_pos hhit] at hres
    simp at hres
  · rw [if_neg hhit] at hres ⊢
    by_cases hloc : toLowerStr (t.source.getD "") = "local"
    · rw [if_pos hloc] at hres ⊢
      unfold copyLocalTemplate at hres ⊢
      by_cases hsrc : pathExists
          (mkdir (removePath fs (cacheDir ++ [t.name])) cacheDir)
          (templatesDir ++ splitPath (localPathOf t)) = true
      · rw [if_pos hsrc] at hres
        simp at hres
      · rw [if_neg hsrc] at hres ⊢
        exact pathExists_fs2_target fs cacheDir t.name
    · rw [if_neg hloc] at hres ⊢
      unfold cloneTemplateFromGitHub at hres ⊢
      by_cases hrep : validRepo t.repo = true
      · rw [hrep] at hres ⊢
        simp only [Bool.not_true, Bool.false_eq_true, if_false] at hres ⊢
        cases cloneResult with
        | error msg =>
          dsimp only at hres ⊢
          refine pathExists_cleanup_false _ tmpRoot _ (fun hut => ?_)
          simp [pathExists, mkdir, removePath, pathUnderEq_refl,
            target_ne_tmpRoot tmpRoot _ hut,
            target_ne_cacheDir cacheDir t.name]
        | ok tree =>
          dsimp only at hres ⊢
          cases hsub : pathExists
              (placeTree (mkdir (mkdir (removePath fs (cacheDir ++ [t.name]))
                cacheDir) tmpRoot) tmpRoot tree)
              (joinTruthy tmpRoot t.subdir) with
          | true => simp [hsub] at hres
          | false =>
            simp only [Bool.not_false, if_true] at hres ⊢
            refine pathExists_cleanup_false _ tmpRoot _ (fun hut => ?_)
            simp [pathExists, placeTree, mkdir, removePath, pathUnderEq_refl,
              relativeTo_none_of_false tmpRoot _ hut,
              target_ne_tmpRoot tmpRoot _ hut,
              target_ne_cacheDir cacheDir t.name]
      · rw [show validRepo t.repo = false from by
          cases h : validRepo t.repo
          · rfl
          · exact absurd h hrep] at hres ⊢
        simp only [Bool.not_false, if_true] at hres ⊢
        exact pathExists_fs2_target fs cacheDir t.name

/-- Counterexample to C3 as stated: when the destination copy itself
fails midway (clone succeeded, `f.txt` already copied), the raised
error is the wrapped fetch error, yet the cache's final directory
`cache/web` is present and partially populated — the source removes only
the temporary clone directory, never the destination. -/
theorem c3_counterexample :
    (ensureTemplateCache fixFs fixRemote true ["tpl"] ["cache"] ["tmp", "x"]
        (Except.ok fixTreeWeb) (CopyOutcome.fail [["f.txt"]] "disk full")
        "now").2 =
      Except.error
        ("Failed to download template from GitHub: " ++ "disk full") ∧
    pathExists (ensureTemplateCache fixFs fixRemote true ["tpl"] ["cache"]
        ["tmp", "x"] (Except.ok fixTreeWeb)
        (CopyOutcome.fail [["f.txt"]] "disk full") "now").1
      (["cache"] ++ [fixRemote.name]) = true ∧
    (ensureTemplateCache fixFs fixRemote true ["tpl"] ["cache"] ["tmp", "x"]
        (Except.ok fixTreeWeb) (CopyOutcome.fail [["f.txt"]] "disk full")
        "now").1.files ["cache", "web", "f.txt"] =
      some (FileData.blob "F") := by
  refine ⟨rfl, by decide, by decide⟩

/-- Witness for C3 (amended) at a concrete clone failure: the wrapped
error is raised and `cache/web` is absent afterwards. -/
theorem c3_witness :
    (ensureTemplateCache fixFs fixRemote true ["tpl"] ["cache"] ["tmp", "x"]
        (Except.error "could not resolve host") CopyOutcome.full "now").2 =
      Except.error
        ("Failed to download template from GitHub: " ++
          "could not resolve host") ∧
    pathExists (ensureTemplateCache fixFs fixRemote true ["tpl"] ["cache"]
        ["tmp", "x"] (Except.error "could not resolve host") CopyOutcome.full
        "now").1 (["cache"] ++ [fixRemote.name]) = false := by
  refine ⟨rfl, ?_⟩
  exact c3_failed_fetch_leaves_cache_absent fixFs fixRemote true ["tpl"]
    ["cache"] ["tmp", "x"] (Except.error "could not resolve host") "now"
    ("Failed to download template from GitHub: " ++ "could not resolve host")
    rfl

/-! ## Claim C1: a forced refresh replaces the cache, never merges -/

theorem mkdir_files (fs : FS) (d q : List String) :
    (mkdir fs d).files q = fs.files q := rfl

theorem removePath_files_other (fs : FS) (d q : List String)
    (h : pathUnderEq d q = false) :
    (removePath fs d).files q = fs.files q := by
  simp [removePath, h]

theorem copyWithin_files_append (fs : FS) (src dst r : List String) :
    (copyWithin fs src dst).files (dst ++ r) =
      match fs.files (src ++ r) with
      | some c => some c
      | none => fs.files (dst ++ r) := by
  unfold copyWithin
  dsimp only
  rw [relativeTo_append]

theorem copyWithin_files_other (fs : FS) (src dst q : List String)
    (h : pathUnderEq dst q = false) :
    (copyWithin fs src dst).files q = fs.files q := by
  unfold copyWithin
  dsimp only
  rw [relativeTo_none_of_false dst q h]

theorem placeTree_files_append (fs : FS) (dst : List String) (t : TreeOut)
    (r : List String) :
    (placeTree fs dst t).files (dst ++ r) =
      match lookupTree t.files r with
      | some c => some c
      | none => fs.files (dst ++ r) := by
  unfold placeTree
  dsimp only
  rw [relativeTo_append]

theorem placeTree_files_other (fs : FS) (dst : List String) (t : TreeOut)
    (q : List String) (h : pathUnderEq dst q = false) :
    (placeTree fs dst t).files q = fs.files q := by
  unfold placeTree
  dsimp only
  rw [relativeTo_none_of_false dst q h]

/-- C1: after a successful `ensure(entry, {force:true})` the cache
directory `cacheRoot/entry.name` holds exactly the new fetch's output
plus the provenance sidecar: the file found at any relative path `r`
inside it is the sidecar (at `.lili-template.json`) or precisely the
fetch output's file at `r`, and in particular every file present before
the refresh but absent from the fetch's output is gone.  The
hypotheses record that the `mkdtemp` directory is fresh and disjoint
from the cache path, and that the bundled templates directory does not
overlap the cache path. -/
theorem c1_force_refresh_replaces (fs : FS) (t : Template)
    (templatesDir cacheDir tmpRoot : List String) (tree : TreeOut)
    (cloneResult : Except String TreeOut) (copyOut : CopyOutcome)
    (now : String) (p : List String)
    (hres : (ensureTemplateCache fs t true templatesDir cacheDir tmpRoot
      cloneResult copyOut now).2 = Except.ok p)
    (hclone : toLowerStr (t.source.getD "") = "local" ∨
      cloneResult = Except.ok tree)
    (hfresh : ∀ q, pathUnderEq tmpRoot q = true → fs.files q = none)
    (hd1 : pathUnderEq tmpRoot (cacheDir ++ [t.name]) = false)
    (hd2 : pathUnderEq (cacheDir ++ [t.name]) tmpRoot = false)
    (hd3 : pathUnderEq (templatesDir ++ splitPath (localPathOf t))
      (cacheDir ++ [t.name]) = false)
    (hd4 : pathUnderEq (cacheDir ++ [t.name])
      (templatesDir ++ splitPath (localPathOf t)) = false) :
    p = cacheDir ++ [t.name] ∧
    ∀ r, r ≠ [] →
      (ensureTemplateCache fs t true templatesDir cacheDir tmpRoot
          cloneResult copyOut now).1.files (cacheDir ++ [t.name] ++ r) =
        if r = [metaFileName] then
          some (FileData.meta (ensuredMeta t now))
        else fetchOutputFile fs t templatesDir tree r := by
  unfold ensureTemplateCache at hres ⊢
  simp only [Bool.not_true, Bool.false_and, Bool.false_eq_true,
    if_false] at hres ⊢
  by_cases hloc : toLowerStr (t.source.getD "") = "local"
  · rw [if_pos hloc] at hres ⊢
    unfold copyLocalTemplate at hres ⊢
    by_cases hsrc : pathExists
        (mkdir (removePath fs (cacheDir ++ [t.name])) cacheDir)
        (templatesDir ++ splitPath (localPathOf t)) = true
    · rw [if_pos hsrc] at hres ⊢
      cases copyOut with
      | fail written msg => simp at hres
      | full =>
        dsimp only at hres ⊢
        refine ⟨(Except.ok.inj hres).symm, ?_⟩
        intro r hr
        unfold writeTemplateMetadata writeFile
        dsimp only
        by_cases hmr : r = [metaFileName]
        · rw [if_pos (by rw [hmr]), if_pos hmr]
          unfold ensuredMeta
          rw [if_pos hloc]
        · rw [if_neg (fun hc => hmr ((List.append_right_inj _).mp hc)),
            if_neg hmr]
          rw [copyWithin_files_append]
          unfold fetchOutputFile
          rw [if_pos hloc]
          rw [show (mkdir (removePath fs (cacheDir ++ [t.name]))
                cacheDir).files
              (templatesDir ++ splitPath (localPathOf t) ++ r) =
              fs.files (templatesDir ++ splitPath (localPathOf t) ++ r) from by
            rw [mkdir_files, removePath_files_other]
            exact pathUnderEq_append_false _ _ r hd4 hd3]
          cases hx : fs.files (templatesDir ++ splitPath (localPathOf t) ++ r) with
          | some c => rfl
          | none =>
            exact fs2_files_under_target fs cacheDir t.name _
              (pathUnderEq_append _ _)
    · rw [if_neg hsrc] at hres
      simp at hres
  · rw [if_neg hloc] at hres ⊢
    unfold cloneTemplateFromGitHub at hres ⊢
    cases hrep : validRepo t.repo with
    | false => simp [hrep] at hres
    | true =>
      rw [hrep] at hres
      simp only [Bool.not_true, Bool.false_eq_true, if_false] at hres ⊢
      rcases hclone with hl | hcl
      · exact absurd hl hloc
      · subst hcl
        dsimp only at hres ⊢
        cases hsub : pathExists
            (placeTree (mkdir (mkdir (removePath fs (cacheDir ++ [t.name]))
              cacheDir) tmpRoot) tmpRoot tree)
            (joinTruthy tmpRoot t.subdir) with
        | false =>
          rw [hsub] at hres
          simp at hres
        | true =>
          rw [hsub] at hres
          simp only [Bool.not_true, Bool.false_eq_true, if_false]
            at hres ⊢
          cases copyOut with
          | fail written msg => simp at hres
          | full =>
            dsimp only at hres ⊢
            refine ⟨(Except.ok.inj hres).symm, ?_⟩
            intro r hr
            unfold writeTemplateMetadata writeFile
            dsimp only
            by_cases hmr : r = [metaFileName]
            · rw [if_pos (by rw [hmr]), if_pos hmr]
              unfold ensuredMeta
              rw [if_neg hloc]
            · rw [if_neg (fun hc => hmr ((List.append_right_inj _).mp hc)),
                if_neg hmr]
              rw [removePath_files_other _ tmpRoot _
                (pathUnderEq_append_false _ _ r hd1 hd2)]
              rw [copyWithin_files_append]
              unfold fetchOutputFile
              rw [if_neg hloc]
              have hjoin : joinTruthy tmpRoot t.subdir ++ r =
                  tmpRoot ++ (joinTruthy [] t.subdir ++ r) := by
                rw [joinTruthy_eq_append tmpRoot t.subdir, List.append_assoc]
              rw [hjoin, placeTree_files_append]
              cases hx : lookupTree tree.files (joinTruthy [] t.subdir ++ r) with
              | some c => rfl
              | none =>
                rw [mkdir_files]
                rw [show (mkdir (removePath fs (cacheDir ++ [t.name]))
                      cacheDir).files
                    (tmpRoot ++ (joinTruthy [] t.subdir ++ r)) =
                    fs.files (tmpRoot ++ (joinTruthy [] t.subdir ++ r)) from by
                  rw [mkdir_files, removePath_files_other]
                  exact pathUnderEq_append_false _ _ _ hd2 hd1]
                rw [hfresh _ (pathUnderEq_append _ _)]
                rw [placeTree_files_other _ _ _ _
                  (pathUnderEq_append_false _ _ r hd1 hd2)]
                rw [mkdir_files]
                exact fs2_files_under_target fs cacheDir t.name _
                  (pathUnderEq_append _ _)

/-- Witness for C1, the local scenario: forcing a refresh of `basic`
replaces the cache directory; the stale file `cache/basic/old.txt`,
absent from the fetch's output, is gone afterwards. -/
theorem c1_witness :
    (ensureTemplateCache fixFs fixLocal true ["tpl"] ["cache"] ["tmp", "x"]
        (Except.ok fixTreeEmpty) CopyOutcome.full "now").1.files
      (["cache"] ++ [fixLocal.name] ++ ["old.txt"]) = none := by
  have hfresh : ∀ q, pathUnderEq ["tmp", "x"] q = true →
      fixFs.files q = none := by
    intro q hq
    show (if q = ["cache", "basic", "old.txt"] then some (FileData.blob "OLD")
      else if q = ["tpl", "basic", "a.txt"] then some (FileData.blob "A")
      else none) = none
    by_cases h1 : q = ["cache", "basic", "old.txt"]
    · subst h1; exact absurd hq (by decide)
    · rw [if_neg h1]
      by_cases h2 : q = ["tpl", "basic", "a.txt"]
      · subst h2; exact absurd hq (by decide)
      · rw [if_neg h2]
  have h := c1_force_refresh_replaces fixFs fixLocal ["tpl"] ["cache"]
    ["tmp", "x"] fixTreeEmpty (Except.ok fixTreeEmpty) CopyOutcome.full "now"
    (["cache"] ++ [fixLocal.name]) rfl (Or.inl (by decide)) hfresh
    (by decide) (by decide) (by decide) (by decide)
  rw [h.2 ["old.txt"] (by decide)]
  decide

end Lili
